import Mathlib

/-!
Verification of the LoL-Coach frontend draft logic.

The development shallowly embeds the TypeScript hooks of the frontend
(useDraft, useRecommendations/handlePredict in both its mock and its
fetch-based form, useSystemStatus) and, where the backend inference engine
is absent from the sources, a model of the spec's InferenceEngine.

Conventions:
- JS arrays of `string | null` become `List (Option String)`.
- `Array.prototype.filter(Boolean)` keeps the truthy entries, i.e. the
  entries that are neither `null` nor the empty string; `truthyEntries`
  embeds exactly that.
- `Array.prototype.sort(cmp)` is required by ECMAScript to be stable; a
  stable sort is extensionally determined by the comparator, so it is
  embedded as `List.insertionSort` (Mathlib's stable sort) over the
  ordering induced by the comparator.
- `Math.random()` is embedded as an explicit stream `rng : Nat → Nat`
  supplying, for the i-th call, the value of `Math.floor(random * 30)`
  (a number in `[0, 30)`).
-/

namespace LoLCoach

/-- The Role enum (TOP, JUNGLE, MID, ADC, SUPPORT) from the frontend types. -/
inductive Role where
  | TOP
  | JUNGLE
  | MID
  | ADC
  | SUPPORT
deriving DecidableEq, Repr

/-- The fixed role order `[Role.TOP, Role.JUNGLE, Role.MID, Role.ADC, Role.SUPPORT]`
used by handlePredict to locate the target role's ally slot. -/
def roleList : List Role := [.TOP, .JUNGLE, .MID, .ADC, .SUPPORT]

/-- roleIndex, the `indexOf` of the target role in the fixed role list. -/
def roleIndex (r : Role) : Nat := roleList.indexOf r

/-- A champion as held in championList: id, display name, image URL. -/
structure Champion where
  id : String
  name : String
  image : String
deriving DecidableEq, Repr

/-- The DraftState of useDraft: five ally slots, five enemy slots, five
ally-ban slots, five enemy-ban slots (empty slots are none), and the
target role. -/
structure DraftState where
  allies : List (Option String)
  enemies : List (Option String)
  allyBans : List (Option String)
  enemyBans : List (Option String)
  targetRole : Role
deriving DecidableEq, Repr

/-- A Recommendation as produced by the hook: champion id, display name,
integer score, primary reason string. -/
structure Recommendation where
  championId : String
  championName : String
  score : Int
  primaryReason : String
deriving DecidableEq, Repr

/-- The truthy entries of a `(string | null)[]` array, as computed by
`.filter(Boolean)`: the entries that are neither null nor the empty
string. -/
def truthyEntries (l : List (Option String)) : List String :=
  l.filterMap (fun o => o.bind (fun s => if s = "" then none else some s))

/-- The non-null entries of a `(string | null)[]` array (the notion used by
the specification when it says a champion occupies a slot). -/
def nonNullEntries (l : List (Option String)) : List String :=
  l.filterMap id

/-- The allies array handlePredict uses for scoring: a copy of the draft's
allies with the target role's slot cleared when it was occupied
(`isRoleFilled`), otherwise the allies unchanged. -/
def predictCurrentAllies (d : DraftState) : List (Option String) :=
  if d.allies.getD (roleIndex d.targetRole) none ≠ none then
    d.allies.set (roleIndex d.targetRole) none
  else
    d.allies

/-- The stored draft after handlePredict's setDraft call: the target
role's ally slot is cleared when it was occupied, and the draft is left
untouched otherwise. -/
def predictDraftUpdate (d : DraftState) : DraftState :=
  if d.allies.getD (roleIndex d.targetRole) none ≠ none then
    { d with allies := d.allies.set (roleIndex d.targetRole) none }
  else
    d

/-- The `taken` set of the mock handlePredict: the truthy entries of
currentAllies, enemies, allyBans and enemyBans concatenated. -/
def mockTaken (d : DraftState) : List String :=
  truthyEntries (predictCurrentAllies d ++ d.enemies ++ d.allyBans ++ d.enemyBans)

/-- The candidate champions of the mock handlePredict: the champion list
filtered to those whose id the taken set does not contain. -/
def mockCandidates (d : DraftState) (championList : List Champion) : List Champion :=
  championList.filter (fun c => !((mockTaken d).contains c.id))

/-- The random score of the i-th scored candidate:
`Math.floor(Math.random() * 30) + 70`, with the i-th random draw supplied
by the stream. -/
def mockScore (rng : Nat → Nat) (i : Nat) : Int :=
  70 + (rng i % 30)

/-- The mock handlePredict's unsorted recommendations: the first 8
candidates, each mapped to a Recommendation with a freshly drawn random
score and the fixed reason string. -/
def mockScored (cands : List Champion) (rng : Nat → Nat) : List Recommendation :=
  (cands.take 8).enum.map (fun p =>
    { championId := p.2.id
      championName := p.2.name
      score := mockScore rng p.1
      primaryReason := "Great synergy with team composition" })

/-- The ordering induced by the comparator `(a, b) => b.score - a.score`:
`a` may precede `b` exactly when the comparator is nonpositive, i.e. when
`b.score ≤ a.score`. -/
def recGE (a b : Recommendation) : Prop := b.score ≤ a.score

instance : DecidableRel recGE := fun a b => inferInstanceAs (Decidable (b.score ≤ a.score))

instance : IsTotal Recommendation recGE where
  total a b := le_total b.score a.score

instance : IsTrans Recommendation recGE where
  trans _ _ _ hab hbc := le_trans hbc hab

/-- The mock handlePredict: clears the target role's ally slot when
occupied (updating the stored draft), filters the champion list against
the taken set, scores the first 8 candidates with random scores and sorts
them by score descending with the stable Array.prototype.sort. Returns
the updated stored draft and the recommendations. -/
def mockPredict (d : DraftState) (championList : List Champion) (rng : Nat → Nat) :
    DraftState × List Recommendation :=
  (predictDraftUpdate d,
   List.insertionSort recGE (mockScored (mockCandidates d championList) rng))

/-- The JSON body of the fetch-based handlePredict's inference request:
fields role, allies, enemies, bans, top_k. -/
structure PredictPayload where
  role : Role
  allies : List String
  enemies : List String
  bans : List String
  top_k : Nat
deriving DecidableEq, Repr

/-- The request body built by the fetch-based handlePredict: the target
role, the truthy entries of currentAllies (after any target-role
clearing), the truthy entries of the enemies, the truthy entries of the
concatenated ban arrays, and the literal top_k of 10. -/
def predictPayload (d : DraftState) : PredictPayload :=
  { role := d.targetRole
    allies := truthyEntries (predictCurrentAllies d)
    enemies := truthyEntries d.enemies
    bans := truthyEntries (d.allyBans ++ d.enemyBans)
    top_k := 10 }

/-- One recommendation of the backend response body:
`{ champion, score, reasons }`, where reasons may be absent. -/
structure BackendRec where
  champion : String
  score : ℚ
  reasons : Option (List String)
deriving DecidableEq, Repr

/-- JavaScript's `Math.round`: the floor of the argument plus one half. -/
def jsRound (q : ℚ) : Int := ⌊q + 1 / 2⌋

/-- The mapping of one backend recommendation to the frontend
Recommendation: champion id copied, display name looked up in the
champion list (falling back to the raw id), score `Math.round(score * 100)`,
primary reason the first reasons entry or the fixed fallback. -/
def mapRec (championList : List Champion) (r : BackendRec) : Recommendation :=
  { championId := r.champion
    championName :=
      match championList.find? (fun c => c.id == r.champion) with
      | some c => c.name
      | none => r.champion
    score := jsRound (r.score * 100)
    primaryReason :=
      match r.reasons with
      | some (x :: _) => x
      | _ => "Recommended based on draft state" }

/-- The state of the useRecommendations hook: the stored recommendations,
the loading flag, the error message. -/
structure RecState where
  recommendations : List Recommendation
  loading : Bool
  error : Option String
deriving DecidableEq, Repr

/-- One complete run of the fetch-based handlePredict over the hook
state, with the network outcome made explicit: `Except.ok data` when the
fetch succeeded with an ok response carrying the parsed recommendations,
`Except.error ()` when the fetch threw or the response was not ok. The
sequence mirrors the source: setLoading(true); setError(null); then
either setRecommendations(mapped) or, in the catch block,
setError("Failed to get recommendations"); finally setLoading(false). -/
def predictRun (championList : List Champion) (resp : Except Unit (List BackendRec))
    (st : RecState) : RecState :=
  let st1 := { st with loading := true }
  let st2 := { st1 with error := none }
  let st3 :=
    match resp with
    | .ok data => { st2 with recommendations := data.map (mapRec championList) }
    | .error _ => { st2 with error := some "Failed to get recommendations" }
  { st3 with loading := false }

/-- The system status reported by useSystemStatus. -/
inductive SystemStatus where
  | ONLINE
  | OFFLINE
deriving DecidableEq, Repr

/-- The systemStatus resulting from the /health fetch: on success, ONLINE
exactly when the response's status field is the string "ok"; on failure
the catch handler sets OFFLINE. The field is an Option because the JSON
may lack it (undefined compares unequal to "ok"). -/
def systemStatusOf (resp : Except Unit (Option String)) : SystemStatus :=
  match resp with
  | .ok s => if s = some "ok" then .ONLINE else .OFFLINE
  | .error _ => .OFFLINE

/-- The version string resulting from the /version fetch: on success the
response's version field prefixed with "v"; on failure the initial state
"v0.0.0" is kept (the catch handler does nothing). -/
def versionOf (resp : Except Unit String) : String :=
  match resp with
  | .ok v => "v" ++ v
  | .error _ => "v0.0.0"

/-- The destination of an open champion selector in useDraft. -/
inductive Destination where
  | ally
  | enemy
  | allyBan
  | enemyBan
deriving DecidableEq, Repr

/-- The SelectorContext of useDraft: a slot index and a destination. -/
structure SelectorContext where
  idx : Nat
  destination : Destination
deriving DecidableEq, Repr

/-- handleSelect of useDraft: with no open selector context it returns
immediately; with an open context it replaces slot idx of the destination
array by the selected champion id (or null for the empty-string reset
value) via `[...arr.slice(0, idx), value, ...arr.slice(idx + 1)]` and
closes the selector. Returns the new draft and the new selector
context. -/
def handleSelect (selectorContext : Option SelectorContext) (champId : String)
    (d : DraftState) : DraftState × Option SelectorContext :=
  match selectorContext with
  | none => (d, none)
  | some ctx =>
    let valueToSet := if champId = "" then none else some champId
    let d' :=
      match ctx.destination with
      | .ally =>
          { d with allies := d.allies.take ctx.idx ++ valueToSet :: d.allies.drop (ctx.idx + 1) }
      | .enemy =>
          { d with enemies := d.enemies.take ctx.idx ++ valueToSet :: d.enemies.drop (ctx.idx + 1) }
      | .allyBan =>
          { d with allyBans := d.allyBans.take ctx.idx ++ valueToSet :: d.allyBans.drop (ctx.idx + 1) }
      | .enemyBan =>
          { d with enemyBans := d.enemyBans.take ctx.idx ++ valueToSet :: d.enemyBans.drop (ctx.idx + 1) }
    (d', none)

/-- The slot array of a draft named by a destination. -/
def destList (dest : Destination) (d : DraftState) : List (Option String) :=
  match dest with
  | .ally => d.allies
  | .enemy => d.enemies
  | .allyBan => d.allyBans
  | .enemyBan => d.enemyBans

/-! ### Helper lemmas -/

theorem mem_truthyEntries {s : String} {l : List (Option String)} :
    s ∈ truthyEntries l ↔ some s ∈ l ∧ s ≠ "" := by
  simp only [truthyEntries, List.mem_filterMap]
  constructor
  · rintro ⟨o, ho, hbind⟩
    cases o with
    | none => exact Option.noConfusion hbind
    | some t =>
      have hbind' : (if t = "" then none else some t) = some s := hbind
      by_cases ht : t = ""
      · rw [if_pos ht] at hbind'
        exact Option.noConfusion hbind'
      · rw [if_neg ht] at hbind'
        rcases Option.some.inj hbind' with rfl
        exact ⟨ho, ht⟩
  · rintro ⟨hmem, hne⟩
    exact ⟨some s, hmem, by simp [hne]⟩

/-! ### C10: system status -/

/-- C10: useSystemStatus reports ONLINE exactly when the /health response
succeeded and its status field is the string "ok"; a failed /health fetch
yields OFFLINE, and a failed /version fetch leaves the default version
string "v0.0.0". -/
theorem c10_system_status (h : Except Unit (Option String)) :
    (systemStatusOf h = SystemStatus.ONLINE ↔ h = Except.ok (some "ok")) ∧
    systemStatusOf (Except.error ()) = SystemStatus.OFFLINE ∧
    versionOf (Except.error ()) = "v0.0.0" := by
  refine ⟨?_, rfl, rfl⟩
  cases h with
  | ok s =>
    by_cases hs : s = some "ok" <;> simp [systemStatusOf, hs]
  | error e => simp [systemStatusOf]

/-! ### C9: error handling of the fetch-based handlePredict -/

/-- C9: when the request fails, the stored recommendations are unchanged,
the error state holds the fixed failure message and loading ends false;
on success the error state is cleared, loading ends false and the
recommendations are the mapped response. -/
theorem c9_error_handling (championList : List Champion) (st : RecState)
    (data : List BackendRec) :
    (predictRun championList (Except.error ()) st).recommendations = st.recommendations ∧
    (predictRun championList (Except.error ()) st).error = some "Failed to get recommendations" ∧
    (predictRun championList (Except.error ()) st).loading = false ∧
    (predictRun championList (Except.ok data) st).error = none ∧
    (predictRun championList (Except.ok data) st).loading = false ∧
    (predictRun championList (Except.ok data) st).recommendations
      = data.map (mapRec championList) :=
  ⟨rfl, rfl, rfl, rfl, rfl, rfl⟩

/-! ### C7: mapping of one backend recommendation -/

/-- The C7 conclusion at a given champion list and backend
recommendation: the mapped score is the rounding of 100 times the
backend score and lies in [0, 100]; the primary reason is the first
reasons entry when present and the fixed fallback otherwise; the
champion name is the display name of the matching champion-list entry,
or the raw id when none matches. -/
def C7Concl (championList : List Champion) (r : BackendRec) : Prop :=
  (mapRec championList r).score = jsRound (100 * r.score) ∧
  0 ≤ (mapRec championList r).score ∧
  (mapRec championList r).score ≤ 100 ∧
  (∀ x xs, r.reasons = some (x :: xs) → (mapRec championList r).primaryReason = x) ∧
  ((r.reasons = none ∨ r.reasons = some []) →
    (mapRec championList r).primaryReason = "Recommended based on draft state") ∧
  (∀ c, championList.find? (fun c => c.id == r.champion) = some c →
    (mapRec championList r).championName = c.name) ∧
  (championList.find? (fun c => c.id == r.champion) = none →
    (mapRec championList r).championName = r.champion)

/-- C7: for a backend recommendation with score in [0, 1], the frontend
maps it to the integer round(100·s), which lies in [0, 100]; the primary
reason is the first reasons entry when that list is non-empty and the
fixed fallback otherwise; the champion name is the matching display name
or the raw id. -/
theorem c7_map_rec (championList : List Champion) (r : BackendRec)
    (h0 : 0 ≤ r.score) (h1 : r.score ≤ 1) : C7Concl championList r := by
  refine ⟨by simp [mapRec, mul_comm], ?_, ?_, ?_, ?_, ?_, ?_⟩
  · show (0 : Int) ≤ jsRound (r.score * 100)
    rw [jsRound]
    exact Int.le_floor.mpr (by push_cast; nlinarith)
  · show jsRound (r.score * 100) ≤ 100
    rw [jsRound]
    have : (⌊r.score * 100 + 1 / 2⌋ : Int) < 101 :=
      Int.floor_lt.mpr (by push_cast; nlinarith)
    omega
  · intro x xs hx
    simp [mapRec, hx]
  · rintro (hx | hx) <;> simp [mapRec, hx]
  · intro c hc
    simp [mapRec, hc]
  · intro hc
    simp [mapRec, hc]

/-- Witness for C7 at a concrete backend recommendation. -/
theorem c7_map_rec_witness :
    (0 ≤ (({ champion := "Ahri", score := 1 / 2, reasons := some ["synergy"] } : BackendRec)).score) ∧
    C7Concl [{ id := "Ahri", name := "Ahri", image := "" }]
      { champion := "Ahri", score := 1 / 2, reasons := some ["synergy"] } :=
  ⟨by norm_num,
   c7_map_rec [{ id := "Ahri", name := "Ahri", image := "" }]
     { champion := "Ahri", score := 1 / 2, reasons := some ["synergy"] }
     (by norm_num) (by norm_num)⟩

/-! ### C8: frame property of handleSelect -/

/-- The C8 conclusion for an open selector context: the selector closes,
the target role is unchanged, the three arrays not named by the
destination are unchanged, and the named array keeps its length, gets
the selected value (null for the empty-string reset) at slot idx, and
keeps every other slot. -/
def C8Concl (d : DraftState) (champId : String) (idx : Nat) (dest : Destination) : Prop :=
  (handleSelect (some ⟨idx, dest⟩) champId d).2 = none ∧
  (handleSelect (some ⟨idx, dest⟩) champId d).1.targetRole = d.targetRole ∧
  (∀ dd : Destination, dd ≠ dest →
    destList dd (handleSelect (some ⟨idx, dest⟩) champId d).1 = destList dd d) ∧
  (destList dest (handleSelect (some ⟨idx, dest⟩) champId d).1).length
    = (destList dest d).length ∧
  (destList dest (handleSelect (some ⟨idx, dest⟩) champId d).1).getD idx none
    = (if champId = "" then none else some champId) ∧
  (∀ j, j ≠ idx →
    (destList dest (handleSelect (some ⟨idx, dest⟩) champId d).1).getD j none
      = (destList dest d).getD j none)

/-- The spliced array of handleSelect is List.set when the index is in
range. -/
theorem handleSelect_splice_eq_set {l : List (Option String)} {idx : Nat}
    (h : idx < l.length) (v : Option String) :
    l.take idx ++ v :: l.drop (idx + 1) = l.set idx v :=
  (List.set_eq_take_cons_drop v h).symm

/-- C8: with an open selector context naming a valid slot, handleSelect
changes only that slot of the named array (to the selected id, or null
for the empty-string reset), leaves the other arrays and the target role
unchanged, and closes the selector; with no open context the draft is
unchanged. -/
theorem c8_handle_select (d : DraftState) (champId : String) (idx : Nat)
    (dest : Destination) (h : idx < (destList dest d).length) :
    handleSelect none champId d = (d, none) ∧ C8Concl d champId idx dest := by
  refine ⟨rfl, ?_⟩
  have hset : ∀ l : List (Option String), idx < l.length →
      l.take idx ++ (if champId = "" then none else some champId) :: l.drop (idx + 1)
        = l.set idx (if champId = "" then none else some champId) :=
    fun l hl => handleSelect_splice_eq_set hl _
  cases dest with
  | ally =>
    refine ⟨rfl, rfl, ?_, ?_, ?_, ?_⟩
    · rintro dd hdd
      cases dd <;> simp_all [destList, handleSelect]
    · simp only [destList, handleSelect] at h ⊢
      rw [hset _ h, List.length_set]
    · simp only [destList, handleSelect] at h ⊢
      rw [hset _ h, List.getD_eq_getElem?_getD, List.getElem?_set_self (by simpa using h)]
      simp
    · intro j hj
      simp only [destList, handleSelect] at h ⊢
      rw [hset _ h, List.getD_eq_getElem?_getD, List.getElem?_set_ne (by omega),
        ← List.getD_eq_getElem?_getD]
  | enemy =>
    refine ⟨rfl, rfl, ?_, ?_, ?_, ?_⟩
    · rintro dd hdd
      cases dd <;> simp_all [destList, handleSelect]
    · simp only [destList, handleSelect] at h ⊢
      rw [hset _ h, List.length_set]
    · simp only [destList, handleSelect] at h ⊢
      rw [hset _ h, List.getD_eq_getElem?_getD, List.getElem?_set_self (by simpa using h)]
      simp
    · intro j hj
      simp only [destList, handleSelect] at h ⊢
      rw [hset _ h, List.getD_eq_getElem?_getD, List.getElem?_set_ne (by omega),
        ← List.getD_eq_getElem?_getD]
  | allyBan =>
    refine ⟨rfl, rfl, ?_, ?_, ?_, ?_⟩
    · rintro dd hdd
      cases dd <;> simp_all [destList, handleSelect]
    · simp only [destList, handleSelect] at h ⊢
      rw [hset _ h, List.length_set]
    · simp only [destList, handleSelect] at h ⊢
      rw [hset _ h, List.getD_eq_getElem?_getD, List.getElem?_set_self (by simpa using h)]
      simp
    · intro j hj
      simp only [destList, handleSelect] at h ⊢
      rw [hset _ h, List.getD_eq_getElem?_getD, List.getElem?_set_ne (by omega),
        ← List.getD_eq_getElem?_getD]
  | enemyBan =>
    refine ⟨rfl, rfl, ?_, ?_, ?_, ?_⟩
    · rintro dd hdd
      cases dd <;> simp_all [destList, handleSelect]
    · simp only [destList, handleSelect] at h ⊢
      rw [hset _ h, List.length_set]
    · simp only [destList, handleSelect] at h ⊢
      rw [hset _ h, List.getD_eq_getElem?_getD, List.getElem?_set_self (by simpa using h)]
      simp
    · intro j hj
      simp only [destList, handleSelect] at h ⊢
      rw [hset _ h, List.getD_eq_getElem?_getD, List.getElem?_set_ne (by omega),
        ← List.getD_eq_getElem?_getD]

/-- Witness for C8 at a concrete draft and selector context. -/
theorem c8_handle_select_witness :
    (0 < (destList Destination.enemy
      { allies := [none, none, none, none, none]
        enemies := [none, none, none, none, none]
        allyBans := [none, none, none, none, none]
        enemyBans := [none, none, none, none, none]
        targetRole := Role.TOP }).length) ∧
    (handleSelect none "Zed"
      { allies := [none, none, none, none, none]
        enemies := [none, none, none, none, none]
        allyBans := [none, none, none, none, none]
        enemyBans := [none, none, none, none, none]
        targetRole := Role.TOP }
      = ({ allies := [none, none, none, none, none]
           enemies := [none, none, none, none, none]
           allyBans := [none, none, none, none, none]
           enemyBans := [none, none, none, none, none]
           targetRole := Role.TOP }, none)) ∧
    C8Concl
      { allies := [none, none, none, none, none]
        enemies := [none, none, none, none, none]
        allyBans := [none, none, none, none, none]
        enemyBans := [none, none, none, none, none]
        targetRole := Role.TOP } "Zed" 0 Destination.enemy :=
  ⟨by decide,
   (c8_handle_select
     { allies := [none, none, none, none, none]
       enemies := [none, none, none, none, none]
       allyBans := [none, none, none, none, none]
       enemyBans := [none, none, none, none, none]
       targetRole := Role.TOP } "Zed" 0 Destination.enemy (by decide)).1,
   (c8_handle_select
     { allies := [none, none, none, none, none]
       enemies := [none, none, none, none, none]
       allyBans := [none, none, none, none, none]
       enemyBans := [none, none, none, none, none]
       targetRole := Role.TOP } "Zed" 0 Destination.enemy (by decide)).2⟩

/-! ### Lemmas about the mock handlePredict -/

theorem map_snd_enum {α β : Type} (L : List α) (f : α → β) :
    L.enum.map (fun p => f p.2) = L.map f := by
  have hcomp : (fun p : Nat × α => f p.2) = f ∘ Prod.snd := rfl
  rw [hcomp, ← List.map_map, List.enum_map_snd]

/-- Any recommendation of the mock handlePredict arises from a candidate
champion. -/
theorem mem_mockPredict_candidates {d : DraftState} {championList : List Champion}
    {rng : Nat → Nat} {r : Recommendation}
    (hr : r ∈ (mockPredict d championList rng).2) :
    ∃ c ∈ mockCandidates d championList, r.championId = c.id ∧ r.championName = c.name := by
  simp only [mockPredict] at hr
  rw [List.mem_insertionSort] at hr
  simp only [mockScored, List.mem_map] at hr
  obtain ⟨p, hp, rfl⟩ := hr
  have hsnd : p.2 ∈ ((mockCandidates d championList).take 8).enum.map Prod.snd :=
    List.mem_map_of_mem Prod.snd hp
  rw [List.enum_map_snd] at hsnd
  exact ⟨p.2, List.mem_of_mem_take hsnd, rfl, rfl⟩

/-! ### C1: recommendations avoid taken champions -/

/-- C1 counterexample: with an ally slot holding the empty string and a
champion whose id is the empty string, the mock handlePredict recommends
that champion even though its id occupies a non-null ally slot (the
filter(Boolean) drops empty strings, not just nulls). -/
theorem c1_counterexample :
    ((mockPredict
        { allies := [none, some "", none, none, none]
          enemies := [none, none, none, none, none]
          allyBans := [none, none, none, none, none]
          enemyBans := [none, none, none, none, none]
          targetRole := Role.TOP }
        [{ id := "", name := "Empty", image := "" }] (fun _ => 0)).2.map
          (fun r => r.championId)) = [""] ∧
    "" ∈ nonNullEntries
      ([none, some "", none, none, none] ++ [none, none, none, none, none]
        ++ [none, none, none, none, none] ++ [none, none, none, none, none]) := by
  constructor <;> decide

/-- C1 (amended): every recommendation of the mock handlePredict is for a
champion whose id is not among the truthy (non-null and non-empty)
entries of the allies after any target-role clearing, the enemies, the
ally bans or the enemy bans; in particular a champion with a non-empty id
occupying any ban slot never appears in the recommendations. -/
theorem c1_no_taken_champion (d : DraftState) (championList : List Champion)
    (rng : Nat → Nat) (r : Recommendation)
    (hr : r ∈ (mockPredict d championList rng).2) :
    r.championId ∉ mockTaken d := by
  obtain ⟨c, hc, hid, _⟩ := mem_mockPredict_candidates hr
  have hpred := (List.mem_filter.1 hc).2
  intro hmem
  rw [hid] at hmem
  simp at hpred
  exact hpred hmem

/-- Witness for C1 at a concrete draft with a banned champion. -/
theorem c1_no_taken_champion_witness :
    ({ championId := "Ahri", championName := "Ahri", score := 70,
       primaryReason := "Great synergy with team composition" } : Recommendation)
      ∈ (mockPredict
          { allies := [none, none, none, none, none]
            enemies := [none, none, none, none, none]
            allyBans := [some "Zed", none, none, none, none]
            enemyBans := [none, none, none, none, none]
            targetRole := Role.TOP }
          [{ id := "Ahri", name := "Ahri", image := "" }] (fun _ => 0)).2 ∧
    ("Ahri" : String) ∉ mockTaken
      { allies := [none, none, none, none, none]
        enemies := [none, none, none, none, none]
        allyBans := [some "Zed", none, none, none, none]
        enemyBans := [none, none, none, none, none]
        targetRole := Role.TOP } :=
  ⟨by decide,
   c1_no_taken_champion
     { allies := [none, none, none, none, none]
       enemies := [none, none, none, none, none]
       allyBans := [some "Zed", none, none, none, none]
       enemyBans := [none, none, none, none, none]
       targetRole := Role.TOP }
     [{ id := "Ahri", name := "Ahri", image := "" }] (fun _ => 0)
     { championId := "Ahri", championName := "Ahri", score := 70,
       primaryReason := "Great synergy with team composition" }
     (by decide)⟩

/-! ### C2: determinism across two calls -/

/-- C2 counterexample: two calls of the mock handlePredict on an
identical draft and identical champion list return different
recommendation lists, because the scores are drawn from Math.random
afresh on every call (here the two calls observe random draws 0 and 1,
producing scores 70 and 71). -/
theorem c2_counterexample :
    (mockPredict
      { allies := [none, none, none, none, none]
        enemies := [none, none, none, none, none]
        allyBans := [none, none, none, none, none]
        enemyBans := [none, none, none, none, none]
        targetRole := Role.TOP }
      [{ id := "Ahri", name := "Ahri", image := "" }] (fun _ => 0)).2
    ≠ (mockPredict
      { allies := [none, none, none, none, none]
        enemies := [none, none, none, none, none]
        allyBans := [none, none, none, none, none]
        enemyBans := [none, none, none, none, none]
        targetRole := Role.TOP }
      [{ id := "Ahri", name := "Ahri", image := "" }] (fun _ => 1)).2 := by
  decide

/-- C2 (amended): two calls of the mock handlePredict with identical
draft state and identical champion list recommend the same champions
(the same multiset of champion id and name pairs) whatever random draws
the two calls observe; only the drawn scores, and hence the order, can
differ. -/
theorem c2_same_champions (d : DraftState) (championList : List Champion)
    (rng₁ rng₂ : Nat → Nat) :
    ((mockPredict d championList rng₁).2.map (fun r => (r.championId, r.championName))).Perm
    ((mockPredict d championList rng₂).2.map (fun r => (r.championId, r.championName))) := by
  have key : ∀ rng : Nat → Nat,
      ((mockPredict d championList rng).2.map
        (fun r => (r.championId, r.championName))).Perm
      (((mockCandidates d championList).take 8).map (fun c => (c.id, c.name))) := by
    intro rng
    have hperm :=
      (List.perm_insertionSort recGE (mockScored (mockCandidates d championList) rng)).map
        (fun r => (r.championId, r.championName))
    have hmap : (mockScored (mockCandidates d championList) rng).map
        (fun r => (r.championId, r.championName))
        = ((mockCandidates d championList).take 8).map (fun c => (c.id, c.name)) := by
      rw [mockScored, List.map_map]
      show ((mockCandidates d championList).take 8).enum.map
        (fun p => (p.2.id, p.2.name)) = _
      exact map_snd_enum ((mockCandidates d championList).take 8)
        (fun c : Champion => (c.id, c.name))
    rw [mockPredict]
    exact hmap ▸ hperm
  exact (key rng₁).trans (key rng₂).symm

/-! ### C3: output order -/

/-- The output order claimed by the specification: score descending with
ties in ascending champion-identifier order. -/
def c3ClaimedOrder (a b : Recommendation) : Prop :=
  b.score < a.score ∨ (a.score = b.score ∧ a.championId ≤ b.championId)

/-- C3 counterexample: with two champions listed as b before a and equal
random scores, the mock handlePredict returns them in champion-list
order b, a — the stable sort keeps ties in input order, not in ascending
champion-identifier order as claimed. -/
theorem c3_counterexample :
    ¬ ((mockPredict
        { allies := [none, none, none, none, none]
          enemies := [none, none, none, none, none]
          allyBans := [none, none, none, none, none]
          enemyBans := [none, none, none, none, none]
          targetRole := Role.TOP }
        [{ id := "b", name := "B", image := "" }, { id := "a", name := "A", image := "" }]
        (fun _ => 0)).2.Pairwise c3ClaimedOrder) := by
  intro h
  have hlist : (mockPredict
      { allies := [none, none, none, none, none]
        enemies := [none, none, none, none, none]
        allyBans := [none, none, none, none, none]
        enemyBans := [none, none, none, none, none]
        targetRole := Role.TOP }
      [{ id := "b", name := "B", image := "" }, { id := "a", name := "A", image := "" }]
      (fun _ => 0)).2
      = [{ championId := "b", championName := "B", score := 70,
           primaryReason := "Great synergy with team composition" },
         { championId := "a", championName := "A", score := 70,
           primaryReason := "Great synergy with team composition" }] := by decide
  rw [hlist] at h
  have hrel := List.rel_of_pairwise_cons h (List.mem_singleton.2 rfl)
  rcases hrel with hlt | ⟨_, hle⟩
  · exact absurd hlt (by decide)
  · rw [String.le_iff_toList_le] at hle
    exact absurd hle (by decide)

/-- The filter-stability helper: filtering the stable sort at any fixed
score gives the same list as filtering the unsorted input, i.e. the sort
keeps equal-score elements in input order. -/
theorem insertionSort_filter_score (l : List Recommendation) (s : Int) :
    (List.insertionSort recGE l).filter (fun r => r.score == s)
      = l.filter (fun r => r.score == s) := by
  have hA : (l.filter (fun r => r.score == s)).Pairwise recGE := by
    refine List.pairwise_of_forall_mem_list ?_
    intro a ha b hb
    have ha' := (List.mem_filter.1 ha).2
    have hb' := (List.mem_filter.1 hb).2
    simp only [beq_iff_eq] at ha' hb'
    rw [recGE, ha', hb']
  have hsub : (l.filter (fun r => r.score == s)).Sublist (List.insertionSort recGE l) :=
    List.sublist_insertionSort hA (List.filter_sublist l)
  have hfix : (l.filter (fun r => r.score == s)).filter (fun r => r.score == s)
      = l.filter (fun r => r.score == s) :=
    List.filter_eq_self.mpr (fun a ha => (List.mem_filter.1 ha).2)
  have hsub2 := hsub.filter (fun r => r.score == s)
  rw [hfix] at hsub2
  have hperm := (List.perm_insertionSort recGE l).filter (fun r => r.score == s)
  exact (hsub2.eq_of_length hperm.length_eq.symm).symm

/-- C3 (amended): the mock handlePredict's output is sorted by score in
descending order, and recommendations with equal score appear in the
order their champions occur in the champion list (the ECMAScript sort is
stable), so the order is deterministic given the champion list and the
drawn scores — but ties are not in ascending champion-identifier
order. -/
theorem c3_sorted_descending (d : DraftState) (championList : List Champion)
    (rng : Nat → Nat) :
    (mockPredict d championList rng).2.Pairwise (fun a b => b.score ≤ a.score) ∧
    ∀ s : Int, (mockPredict d championList rng).2.filter (fun r => r.score == s)
      = (mockScored (mockCandidates d championList) rng).filter (fun r => r.score == s) := by
  constructor
  · have hs := List.sorted_insertionSort recGE (mockScored (mockCandidates d championList) rng)
    exact hs
  · intro s
    exact insertionSort_filter_score (mockScored (mockCandidates d championList) rng) s

/-! ### C5: target-role clearing -/

/-- C5 counterexample: with the target-role champion also occupying a
second ally slot, handlePredict clears only the target slot, so the
champion still reaches the allies used for scoring — it is not excluded
from scoring as the claim states. -/
theorem c5_counterexample :
    ({ allies := [some "Ahri", some "Ahri", none, none, none]
       enemies := [none, none, none, none, none]
       allyBans := [none, none, none, none, none]
       enemyBans := [none, none, none, none, none]
       targetRole := Role.TOP } : DraftState).allies.getD
        (roleIndex Role.TOP) none = some "Ahri" ∧
    "Ahri" ∈ (predictPayload
      { allies := [some "Ahri", some "Ahri", none, none, none]
        enemies := [none, none, none, none, none]
        allyBans := [none, none, none, none, none]
        enemyBans := [none, none, none, none, none]
        targetRole := Role.TOP }).allies := by
  constructor <;> decide

/-- The C5 conclusion: the stored draft has exactly the target slot
cleared (enemies, both ban arrays and the target role unchanged), and
the occupying champion does not reach the scoring allies of the request
body. -/
def C5Concl (d : DraftState) (champ : String) : Prop :=
  (predictDraftUpdate d).allies = d.allies.set (roleIndex d.targetRole) none ∧
  (predictDraftUpdate d).enemies = d.enemies ∧
  (predictDraftUpdate d).allyBans = d.allyBans ∧
  (predictDraftUpdate d).enemyBans = d.enemyBans ∧
  (predictDraftUpdate d).targetRole = d.targetRole ∧
  champ ∉ (predictPayload d).allies

/-- C5 (amended): if the ally slot at the target role's index is
occupied by a champion that occupies no other ally slot, handlePredict
clears exactly that slot in the stored draft (everything else unchanged)
and excludes that champion from the allies used for scoring; without the
uniqueness proviso only the slot itself is cleared, and a duplicate of
the champion in another slot still reaches scoring. If the target slot
is null, the stored draft is not modified at all. -/
theorem c5_clear_target_role (d : DraftState) (champ : String) :
    (d.allies.getD (roleIndex d.targetRole) none = some champ →
      (∀ j, j < d.allies.length → j ≠ roleIndex d.targetRole →
        d.allies.getD j none ≠ some champ) →
      C5Concl d champ) ∧
    (d.allies.getD (roleIndex d.targetRole) none = none → predictDraftUpdate d = d) := by
  constructor
  · intro hfill huniq
    have hcond : d.allies.getD (roleIndex d.targetRole) none ≠ none := by
      rw [hfill]; exact Option.noConfusion
    refine ⟨?_, ?_, ?_, ?_, ?_, ?_⟩
    · rw [predictDraftUpdate, if_pos hcond]
    · rw [predictDraftUpdate, if_pos hcond]
    · rw [predictDraftUpdate, if_pos hcond]
    · rw [predictDraftUpdate, if_pos hcond]
    · rw [predictDraftUpdate, if_pos hcond]
    · intro hmem
      rw [predictPayload] at hmem
      simp only at hmem
      rw [predictCurrentAllies, if_pos hcond] at hmem
      rcases mem_truthyEntries.1 hmem with ⟨hmem', _⟩
      rcases List.mem_iff_getElem.1 hmem' with ⟨j, hj, hget⟩
      have hjlen : j < d.allies.length := by
        simpa using hj
      by_cases hji : j = roleIndex d.targetRole
      · subst hji
        rw [List.getElem_set_self (by simpa using hjlen)] at hget
        exact Option.noConfusion hget
      · rw [List.getElem_set_ne (fun hne => hji hne.symm)] at hget
        refine huniq j hjlen hji ?_
        rw [List.getD_eq_getElem?_getD, List.getElem?_eq_getElem hjlen, hget]
        rfl
  · intro hnull
    rw [predictDraftUpdate, if_neg (by rw [hnull]; exact fun h => h rfl)]

/-- Witness for C5 at a concrete draft whose target slot holds Ahri. -/
theorem c5_clear_target_role_witness :
    ({ allies := [some "Ahri", none, none, none, none]
       enemies := [none, none, none, none, none]
       allyBans := [none, none, none, none, none]
       enemyBans := [none, none, none, none, none]
       targetRole := Role.TOP } : DraftState).allies.getD
        (roleIndex Role.TOP) none = some "Ahri" ∧
    C5Concl
      { allies := [some "Ahri", none, none, none, none]
        enemies := [none, none, none, none, none]
        allyBans := [none, none, none, none, none]
        enemyBans := [none, none, none, none, none]
        targetRole := Role.TOP } "Ahri" :=
  ⟨by decide,
   (c5_clear_target_role
     { allies := [some "Ahri", none, none, none, none]
       enemies := [none, none, none, none, none]
       allyBans := [none, none, none, none, none]
       enemyBans := [none, none, none, none, none]
       targetRole := Role.TOP } "Ahri").1 (by decide) (by decide)⟩

/-! ### C6: request body of the fetch-based handlePredict -/

/-- C6 counterexample: with the target slot occupied, the request body's
allies list is empty while the non-null entries of the draft's five ally
slots are not — the body is built from the allies after target-role
clearing, not from the draft's non-null ally entries. -/
theorem c6_counterexample :
    (predictPayload
      { allies := [some "Ahri", none, none, none, none]
        enemies := [none, none, none, none, none]
        allyBans := [none, none, none, none, none]
        enemyBans := [none, none, none, none, none]
        targetRole := Role.TOP }).allies = [] ∧
    nonNullEntries [some "Ahri", none, none, none, none] = ["Ahri"] := by
  constructor <;> decide

/-- The C6 conclusion: the request body carries the target role; its
allies are exactly the non-null, non-empty entries of the ally slots
after any target-role clearing; its enemies are exactly the non-null,
non-empty entries of the enemy slots; both have at most five entries;
its bans are the non-null, non-empty ally-side ban entries followed by
the non-null, non-empty enemy-side ban entries; and its top_k is at
least 1. -/
def C6Concl (d : DraftState) : Prop :=
  (predictPayload d).role = d.targetRole ∧
  (∀ s, s ∈ (predictPayload d).allies ↔ some s ∈ predictCurrentAllies d ∧ s ≠ "") ∧
  (∀ s, s ∈ (predictPayload d).enemies ↔ some s ∈ d.enemies ∧ s ≠ "") ∧
  (predictPayload d).bans = truthyEntries d.allyBans ++ truthyEntries d.enemyBans ∧
  (predictPayload d).allies.length ≤ 5 ∧
  (predictPayload d).enemies.length ≤ 5 ∧
  1 ≤ (predictPayload d).top_k

/-- C6 (amended): for a draft with five ally and five enemy slots, the
request body has the target role, the truthy (non-null, non-empty)
entries of the ally slots after any target-role clearing and of the
enemy slots (each of length at most 5), the concatenated truthy ban
entries, and a top_k of at least 1. -/
theorem c6_request_body (d : DraftState) (ha : d.allies.length = 5)
    (he : d.enemies.length = 5) : C6Concl d := by
  refine ⟨rfl, ?_, ?_, ?_, ?_, ?_, ?_⟩
  · intro s
    exact mem_truthyEntries
  · intro s
    exact mem_truthyEntries
  · rw [predictPayload]
    simp only [truthyEntries]
    exact List.filterMap_append d.allyBans d.enemyBans _
  · have hlen : (predictCurrentAllies d).length = d.allies.length := by
      rw [predictCurrentAllies]
      split
      · exact List.length_set d.allies _ _
      · rfl
    calc (predictPayload d).allies.length
        ≤ (predictCurrentAllies d).length := List.length_filterMap_le _ _
      _ = 5 := by rw [hlen, ha]
  · calc (predictPayload d).enemies.length
        ≤ d.enemies.length := List.length_filterMap_le _ _
      _ = 5 := he
  · exact (by omega : (1 : Nat) ≤ 10)

/-- Witness for C6 at a concrete draft. -/
theorem c6_request_body_witness :
    ({ allies := [some "Ahri", none, none, none, none]
       enemies := [some "Zed", none, none, none, none]
       allyBans := [some "Yasuo", none, none, none, none]
       enemyBans := [some "Jinx", none, none, none, none]
       targetRole := Role.MID } : DraftState).allies.length = 5 ∧
    C6Concl
      { allies := [some "Ahri", none, none, none, none]
        enemies := [some "Zed", none, none, none, none]
        allyBans := [some "Yasuo", none, none, none, none]
        enemyBans := [some "Jinx", none, none, none, none]
        targetRole := Role.MID } :=
  ⟨by decide,
   c6_request_body
     { allies := [some "Ahri", none, none, none, none]
       enemies := [some "Zed", none, none, none, none]
       allyBans := [some "Yasuo", none, none, none, none]
       enemyBans := [some "Jinx", none, none, none, none]
       targetRole := Role.MID } (by decide) (by decide)⟩

/-! ### C4: the inference engine's top-k selection (modelled from the spec) -/

/-- Modelled from the spec: the ranking order of the backend
InferenceEngine (spec section 4.3) — probability descending, tie-break
by champion identifier ascending. The backend inference code of this
repository is not under src (only the frontend and an ingestion README
are present), so the per-candidate probability computation is abstracted
as a score function on champion identifiers. -/
def specOrder (score : String → ℚ) (a b : String) : Prop :=
  score b < score a ∨ (score a = score b ∧ a ≤ b)

instance (score : String → ℚ) : DecidableRel (specOrder score) := fun a b =>
  inferInstanceAs (Decidable (score b < score a ∨ (score a = score b ∧ a ≤ b)))

instance (score : String → ℚ) : IsTrans String (specOrder score) where
  trans a b c hab hbc := by
    rcases hab with h1 | ⟨h1, h2⟩ <;> rcases hbc with h3 | ⟨h3, h4⟩
    · exact Or.inl (lt_trans h3 h1)
    · exact Or.inl (h3 ▸ h1)
    · exact Or.inl (h1 ▸ h3)
    · exact Or.inr ⟨h1.trans h3, le_trans h2 h4⟩

instance (score : String → ℚ) : IsTotal String (specOrder score) where
  total a b := by
    rcases lt_trichotomy (score a) (score b) with h | h | h
    · exact Or.inr (Or.inl h)
    · rcases le_total a b with hab | hba
      · exact Or.inl (Or.inr ⟨h, hab⟩)
      · exact Or.inr (Or.inr ⟨h.symm, hba⟩)
    · exact Or.inl (Or.inl h)

/-- Modelled from the spec: the candidate set of the backend
InferenceEngine (spec section 4.3), absent from src — all champions known
to the artifact's base table minus the champions in the draft's allies,
enemies or bans. -/
def specCandidates (artifactChamps allies enemies bans : List String) : List String :=
  artifactChamps.filter
    (fun c => !(allies.contains c || enemies.contains c || bans.contains c))

/-- Modelled from the spec: the backend InferenceEngine recommend
operation (spec section 4.3), absent from src — sort the candidates by
probability descending with ties by champion identifier ascending, and
return the top topK (values beyond the candidate count are truncated
silently, not an error). -/
def specRecommend (artifactChamps : List String) (score : String → ℚ)
    (allies enemies bans : List String) (topK : Nat) : List String :=
  (List.insertionSort (specOrder score)
    (specCandidates artifactChamps allies enemies bans)).take topK

/-- C4: every champion the engine returns scores at least as high as
every candidate it leaves out, and a topK of at least the candidate
count returns all candidates (truncated silently, as a permutation of
the candidate set). -/
theorem c4_top_k (artifactChamps : List String) (score : String → ℚ)
    (allies enemies bans : List String) (topK : Nat) :
    (∀ x ∈ specRecommend artifactChamps score allies enemies bans topK,
      ∀ y ∈ specCandidates artifactChamps allies enemies bans,
        y ∉ specRecommend artifactChamps score allies enemies bans topK →
          score y ≤ score x) ∧
    ((specCandidates artifactChamps allies enemies bans).length ≤ topK →
      (specRecommend artifactChamps score allies enemies bans topK).Perm
        (specCandidates artifactChamps allies enemies bans)) := by
  set cands := specCandidates artifactChamps allies enemies bans with hcands
  set L := List.insertionSort (specOrder score) cands with hL
  constructor
  · intro x hx y hy hyout
    have hsorted : L.Pairwise (specOrder score) :=
      List.sorted_insertionSort (specOrder score) cands
    have hyL : y ∈ L := by
      rw [hL, List.mem_insertionSort]
      exact hy
    have hsplit : L = L.take topK ++ L.drop topK := (List.take_append_drop topK L).symm
    have hpair : (L.take topK ++ L.drop topK).Pairwise (specOrder score) := by
      rw [← hsplit]
      exact hsorted
    have hydrop : y ∈ L.drop topK := by
      rcases (List.mem_append.1 (hsplit ▸ hyL)) with hyt | hyd
      · exact absurd hyt hyout
      · exact hyd
    have hcross := (List.pairwise_append.1 hpair).2.2 x hx y hydrop
    rcases hcross with h | ⟨h, _⟩
    · exact le_of_lt h
    · exact le_of_eq h.symm
  · intro hlen
    have hLlen : L.length = cands.length := List.length_insertionSort _ cands
    have htake : L.take topK = L := List.take_of_length_le (by rw [hLlen]; exact hlen)
    rw [specRecommend, ← hcands, ← hL, htake, hL]
    exact List.perm_insertionSort (specOrder score) cands

/-- Witness for C4 at a concrete artifact and draft: two candidates with
distinct scores, topK of 1 for the selection part and topK of 5 for the
truncation part. -/
theorem c4_top_k_witness :
    ("hi" ∈ specRecommend ["lo", "hi"] (fun c => if c = "hi" then 9 else 1)
      ["x"] [] [] 1) ∧
    ("lo" ∈ specCandidates ["lo", "hi"] ["x"] [] []) ∧
    ("lo" ∉ specRecommend ["lo", "hi"] (fun c => if c = "hi" then 9 else 1)
      ["x"] [] [] 1) ∧
    ((fun c => if c = "hi" then (9 : ℚ) else 1) "lo"
      ≤ (fun c => if c = "hi" then (9 : ℚ) else 1) "hi") ∧
    ((specCandidates ["lo", "hi"] ["x"] [] []).length ≤ 5) ∧
    ((specRecommend ["lo", "hi"] (fun c => if c = "hi" then 9 else 1)
      ["x"] [] [] 5).Perm (specCandidates ["lo", "hi"] ["x"] [] [])) :=
  ⟨by decide, by decide, by decide,
   (c4_top_k ["lo", "hi"] (fun c => if c = "hi" then 9 else 1) ["x"] [] [] 1).1
     "hi" (by decide) "lo" (by decide) (by decide),
   by decide,
   (c4_top_k ["lo", "hi"] (fun c => if c = "hi" then 9 else 1) ["x"] [] [] 5).2
     (by decide)⟩

end LoLCoach
